import Mathlib

set_option maxRecDepth 100000

/-!
Verification of the scraper repository: a shallow embedding of the
embedded-data scanner, dedup/reconciliation logic, product selection,
availability records, location flow and the batch controller, translated
from `src/main.py` and `src/scrapers/{blinkit,zepto,instamart}.py`.

Strings are modelled as `List Char`; Python exceptions as `Except PyErr`;
JSON values (the output of `json.JSONDecoder().raw_decode`) as `JVal`.
Python numbers are modelled exactly as `PyNum := Int × Int` — a decimal
`(mantissa, exponent)` with value `mantissa * 10 ^ exponent`: no claim
below depends on float rounding, only on which values are zero / equal /
raised on.
-/

/-- An exact decimal: `(m, e)` denotes `m * 10 ^ e`. -/
abbrev PyNum := Int × Int

/-- Numeric equality of a decimal with an integer. -/
def pyNumEqInt (v : PyNum) (n : Int) : Bool :=
  if 0 ≤ v.2 then decide (v.1 * (10 : Int) ^ v.2.toNat = n)
  else decide (v.1 = n * (10 : Int) ^ (-v.2).toNat)

/-- A Python exception, identified by its message. -/
structure PyErr where
  msg : List Char
deriving DecidableEq

/-- Shorthand: string literal to `List Char`. -/
def cs (s : String) : List Char := s.data

/-- A JSON value as produced by Python's `json` module.  `num v isFloat raw`
keeps the exact decimal value, whether Python would make it a `float`
(fraction or exponent present), and the literal text (used by `str()`;
Python's shortest float repr is approximated by the literal). -/
inductive JVal where
  | null : JVal
  | bool : Bool → JVal
  | num : PyNum → Bool → List Char → JVal
  | str : List Char → JVal
  | arr : List JVal → JVal
  | obj : List (List Char × JVal) → JVal

/-- A parsed JSON object's fields (a Python dict: insertion ordered,
unique keys by construction). -/
abbrev JObj := List (List Char × JVal)

/-- Association-list lookup (Python `dict.get`, first = only binding). -/
def alGet {α : Type} (m : List (List Char × α)) (k : List Char) : Option α :=
  match m with
  | [] => none
  | (k', v) :: rest => if k' = k then some v else alGet rest k

/-- Python `dict.get(k, d)`. -/
def alGetD {α : Type} (m : List (List Char × α)) (k : List Char) (d : α) : α :=
  (alGet m k).getD d

/-- Python `dict[k] = v`: update in place if present, else append. -/
def alUpd {α : Type} (m : List (List Char × α)) (k : List Char) (v : α) :
    List (List Char × α) :=
  match m with
  | [] => [(k, v)]
  | (k', v') :: rest =>
    if k' = k then (k', v) :: rest else (k', v') :: alUpd rest k v

/-- Python truthiness of a JSON value. -/
def jTruthy : JVal → Bool
  | .null => false
  | .bool b => b
  | .num v _ _ => decide (v.1 ≠ 0)
  | .str s => decide (s ≠ [])
  | .arr xs => !xs.isEmpty
  | .obj fs => !fs.isEmpty

/-- Truthiness of a `dict.get` result (`None` is falsy). -/
def oTruthy : Option JVal → Bool
  | none => false
  | some v => jTruthy v

/-- Python `a or b or ... or default` over `dict.get` results:
first truthy value, else the default. -/
def orChain (vs : List (Option JVal)) (d : JVal) : JVal :=
  match vs with
  | [] => d
  | v :: rest => match v with
    | some x => if jTruthy x then x else orChain rest d
    | none => orChain rest d

/-- Python `==` between a looked-up JSON value and an int literal
(`True == 1`, `1.0 == 1`; strings and `None` compare unequal). -/
def pyEqInt (v : Option JVal) (n : Int) : Bool :=
  match v with
  | some (.num q _ _) => pyNumEqInt q n
  | some (.bool b) => decide ((if b then (1 : Int) else 0) = n)
  | _ => false

/-- Python `==` between a looked-up JSON value and a str literal. -/
def pyEqStr (v : Option JVal) (s : List Char) : Bool :=
  match v with
  | some (.str t) => decide (t = s)
  | _ => false

/-- Python `==` between a JSON value and a str literal. -/
def jEqStrLit (v : JVal) (s : List Char) : Bool :=
  match v with
  | .str t => decide (t = s)
  | _ => false

/-! ## The JSON parser (model of `json.JSONDecoder().raw_decode`)

`raw_decode(s, idx)` parses one complete JSON value starting exactly at
`idx` and ignores trailing text.  The parser below is fuel-indexed; the
fuel is set above the input length at every call site, so it never runs
out on the inputs actually parsed. -/

/-- JSON whitespace. -/
def isJWS (c : Char) : Bool :=
  (c = ' ') || (c = '\t') || (c = '\n') || (c = '\r')

/-- Skip JSON whitespace. -/
def skipWS : List Char → List Char
  | [] => []
  | c :: rest => if isJWS c then skipWS rest else c :: rest

/-- Hex digit value. -/
def hexVal (c : Char) : Option Nat :=
  let n := c.toNat
  if 48 ≤ n ∧ n ≤ 57 then some (n - 48)
  else if 97 ≤ n ∧ n ≤ 102 then some (n - 87)
  else if 65 ≤ n ∧ n ≤ 70 then some (n - 55)
  else none

/-- The apostrophe and brace characters, used in Python `repr` output. -/
def aposChar : Char := Char.ofNat 39

def lbraceChar : Char := Char.ofNat 123

def rbraceChar : Char := Char.ofNat 125

/-- Parse the body of a JSON string (opening quote already consumed).
Strict mode: raw control characters are rejected; `\uXXXX` becomes the
scalar value when valid (surrogate pairing is not modelled). -/
def parseStrBody : Nat → List Char → Option (List Char × List Char)
  | 0, _ => none
  | _, [] => none
  | fuel + 1, c :: rest =>
    if c = '"' then some ([], rest)
    else if c = '\\' then
      match rest with
      | [] => none
      | e :: rest2 =>
        if e = 'u' then
          match rest2 with
          | h1 :: h2 :: h3 :: h4 :: rest3 =>
            match hexVal h1, hexVal h2, hexVal h3, hexVal h4 with
            | some a, some b, some c', some d =>
              let n := ((a * 16 + b) * 16 + c') * 16 + d
              (parseStrBody fuel rest3).map
                (fun p => (Char.ofNat n :: p.1, p.2))
            | _, _, _, _ => none
          | _ => none
        else
          let ch : Option Char :=
            if e = '"' then some '"'
            else if e = '\\' then some '\\'
            else if e = '/' then some '/'
            else if e = 'b' then some (Char.ofNat 8)
            else if e = 'f' then some (Char.ofNat 12)
            else if e = 'n' then some '\n'
            else if e = 'r' then some '\r'
            else if e = 't' then some '\t'
            else none
          match ch with
          | none => none
          | some ch => (parseStrBody fuel rest2).map
              (fun p => (ch :: p.1, p.2))
    else if c.toNat < 32 then none
    else (parseStrBody fuel rest).map (fun p => (c :: p.1, p.2))

/-- Leading decimal digits of a char list. -/
def takeDigits : List Char → (List Char × List Char)
  | [] => ([], [])
  | c :: rest =>
    if c.isDigit then
      let (ds, r) := takeDigits rest
      (c :: ds, r)
    else ([], c :: rest)

/-- Numeric value of a digit list. -/
def digitsVal (ds : List Char) : Nat :=
  ds.foldl (fun acc d => 10 * acc + (d.toNat - 48)) 0

/-- Parse a JSON number at the head of the input, returning the value,
whether Python would produce a `float`, the literal text, and the rest. -/
def parseJNum (s : List Char) : Option (JVal × List Char) :=
  let (negCs, s1) := match s with
    | '-' :: r => (['-'], r)
    | _ => (([] : List Char), s)
  let (ip, s2) := takeDigits s1
  if ip = [] then none
  else if 1 < ip.length ∧ ip.head? = some '0' then none
  else
    let (fpCs, s3) := match s2 with
      | '.' :: r =>
        let (fd, r') := takeDigits r
        if fd = [] then (([] : List Char), s2) else ('.' :: fd, r')
      | _ => (([] : List Char), s2)
    if s3 ≠ s2 ∧ fpCs = [] then none
    else
      let (expCs, expVal, s4) : List Char × Int × List Char :=
        match s3 with
        | e :: r =>
          if e = 'e' ∨ e = 'E' then
            let (sgnCs, sgn, r1) : List Char × Int × List Char :=
              match r with
              | '-' :: more => (['-'], -1, more)
              | '+' :: more => (['+'], 1, more)
              | _ => ([], 1, r)
            let (ed, r2) := takeDigits r1
            if ed = [] then ([], 0, s3)
            else (e :: (sgnCs ++ ed), sgn * (digitsVal ed : Int), r2)
          else ([], 0, s3)
        | [] => ([], 0, s3)
      let fracDigits := fpCs.drop 1
      let mantissa : Int := (digitsVal (ip ++ fracDigits) : Int)
      let signed : Int := if negCs = [] then mantissa else -mantissa
      let scale : Int := expVal - (fracDigits.length : Int)
      let isFloat := fpCs ≠ [] ∨ expCs ≠ []
      some (JVal.num (signed, scale) (decide isFloat)
        (negCs ++ ip ++ fpCs ++ expCs), s4)

mutual

/-- Parse one JSON value starting exactly at the head of the input;
returns the value and the remaining (ignored) text. -/
def parseJVal : Nat → List Char → Option (JVal × List Char)
  | 0, _ => none
  | fuel + 1, s =>
    match s with
    | [] => none
    | c :: rest =>
      if c = '"' then
        (parseStrBody (rest.length + 1) rest).map (fun p => (JVal.str p.1, p.2))
      else if c = lbraceChar then
        let s1 := skipWS rest
        match s1 with
        | c1 :: r1 =>
          if c1 = rbraceChar then some (JVal.obj [], r1)
          else parseJMembers fuel [] s1
        | [] => none
      else if c = '[' then
        let s1 := skipWS rest
        match s1 with
        | c1 :: r1 =>
          if c1 = ']' then some (JVal.arr [], r1)
          else parseJElems fuel [] s1
        | [] => none
      else if (cs "true").isPrefixOf s then some (JVal.bool true, s.drop 4)
      else if (cs "false").isPrefixOf s then some (JVal.bool false, s.drop 5)
      else if (cs "null").isPrefixOf s then some (JVal.null, s.drop 4)
      else parseJNum s

/-- Parse the members of a JSON object (duplicate keys overwrite in
place, as in a Python dict). -/
def parseJMembers : Nat → JObj → List Char → Option (JVal × List Char)
  | 0, _, _ => none
  | fuel + 1, acc, s =>
    match s with
    | '"' :: rest =>
      match parseStrBody (rest.length + 1) rest with
      | none => none
      | some (key, r1) =>
        match skipWS r1 with
        | ':' :: r2 =>
          match parseJVal fuel (skipWS r2) with
          | none => none
          | some (v, r3) =>
            let acc' := alUpd acc key v
            match skipWS r3 with
            | ',' :: r4 => parseJMembers fuel acc' (skipWS r4)
            | c :: r4 =>
              if c = rbraceChar then some (JVal.obj acc', r4) else none
            | [] => none
        | _ => none
    | _ => none

/-- Parse the elements of a JSON array. -/
def parseJElems : Nat → List JVal → List Char → Option (JVal × List Char)
  | 0, _, _ => none
  | fuel + 1, acc, s =>
    match parseJVal fuel s with
    | none => none
    | some (v, r1) =>
      match skipWS r1 with
      | ',' :: r2 => parseJElems fuel (acc ++ [v]) (skipWS r2)
      | c :: r2 => if c = ']' then some (JVal.arr (acc ++ [v]), r2) else none
      | [] => none

end

/-- Model of `decoder.raw_decode(s, p)`: one value parsed anchored at
offset `p`, trailing text ignored; `none` when the parse fails there. -/
def rawDecodeAt (s : List Char) (p : Nat) : Option JVal :=
  (parseJVal (s.length + 2) (s.drop p)).map Prod.fst

/-! ## Python `str()` / `repr()` of recovered values

Used by the source for `str(p_data['product_id'])` and for the
"most detailed candidate" heuristic `len(str(x))`.  `repr` of a float is
approximated by its source literal. -/

/-- Escaping inside Python `repr` of a str (single-quoted). -/
def escPyRepr (s : List Char) : List Char :=
  s.flatMap fun c =>
    if c = '\\' then ['\\', '\\']
    else if c = aposChar then ['\\', aposChar]
    else [c]

/-- Python `repr` of a str: single-quoted. -/
def reprStrLit (s : List Char) : List Char :=
  aposChar :: (escPyRepr s ++ [aposChar])

mutual

/-- Python `repr` of a recovered JSON value. -/
def pyRepr : JVal → List Char
  | .null => cs "None"
  | .bool true => cs "True"
  | .bool false => cs "False"
  | .num _ _ raw => raw
  | .str s => reprStrLit s
  | .arr xs => '[' :: (List.intercalate (cs ", ") (pyReprList xs) ++ [']'])
  | .obj fs =>
    lbraceChar :: (List.intercalate (cs ", ") (pyReprObj fs) ++ [rbraceChar])

/-- `repr` of each element of a list value. -/
def pyReprList : List JVal → List (List Char)
  | [] => []
  | v :: rest => pyRepr v :: pyReprList rest

/-- `repr` of each `key: value` member of a dict value. -/
def pyReprObj : List (List Char × JVal) → List (List Char)
  | [] => []
  | (k, v) :: rest => (reprStrLit k ++ (cs ": " ++ pyRepr v)) :: pyReprObj rest

end

/-- Python `str()` of a value (differs from `repr` only on str). -/
def pyStrTop (v : JVal) : List Char :=
  match v with
  | .str s => s
  | _ => pyRepr v

/-- `str()` of a `dict.get` result (`str(None) = "None"`). -/
def pyStrOfOpt (v : Option JVal) : List Char :=
  match v with
  | none => cs "None"
  | some w => pyStrTop w

/-- `len(str(x))` for a parsed object `x`: the length heuristic used to
pick the "most detailed" candidate. -/
def pyLenStrObj (fs : JObj) : Nat := (pyStrTop (JVal.obj fs)).length

/-- Python whitespace stripped by `str.strip()` (ASCII subset). -/
def isPyWS (c : Char) : Bool :=
  (c = ' ') || (c = '\t') || (c = '\n') || (c = '\r') ||
  (c = Char.ofNat 11) || (c = Char.ofNat 12)

/-- Python `str.strip()`. -/
def pyStrip (s : List Char) : List Char :=
  ((s.dropWhile isPyWS).reverse.dropWhile isPyWS).reverse

/-- Python `str.lower()` (ASCII subset). -/
def pyLower (s : List Char) : List Char := s.map Char.toLower

/-! ## Normalization and marker scanning -/

/-- Python `str.replace(pat, rep)`: left-to-right, non-overlapping. -/
def replaceAllF : Nat → List Char → List Char → List Char → List Char
  | 0, _, _, s => s
  | fuel + 1, pat, rep, s =>
    if !pat.isEmpty && pat.isPrefixOf s then
      rep ++ replaceAllF fuel pat rep (s.drop pat.length)
    else
      match s with
      | [] => []
      | c :: rest => c :: replaceAllF fuel pat rep rest

/-- `str.replace` with the fuel set above the input length. -/
def pyReplace (pat rep s : List Char) : List Char :=
  replaceAllF (s.length + 1) pat rep s

/-- The normalization from the adapters:
`content.replace(r'\"', '"').replace(r'\\', '\\')`. -/
def pyNormalize (s : List Char) : List Char :=
  pyReplace (cs "\\\\") (cs "\\") (pyReplace (cs "\\\"") (cs "\"") s)

/-- All offsets whose suffix satisfies `P`, left to right.  For the
marker patterns used here a match can never start strictly inside an
earlier match (each pattern contains its only opening brace at offset 0),
so this coincides with `re.finditer`'s non-overlapping scan. -/
def scanPosAux (P : List Char → Bool) : Nat → List Char → List Nat
  | i, [] => if P [] then [i] else []
  | i, s@(_ :: rest) => (if P s then [i] else []) ++ scanPosAux P (i + 1) rest

def scanPositions (P : List Char → Bool) (s : List Char) : List Nat :=
  scanPosAux P 0 s

/-- Python `pat in s` substring test (for the keyword scans). -/
def containsSub (pat s : List Char) : Bool :=
  !(scanPositions (pat.isPrefixOf) s).isEmpty

/-! ## EmbeddedDataScanner, Blinkit flavour
(`BlinkitScraper.scrape_assortment`, blinkit.py lines 110-131). -/

/-- The marker anchoring every serialized Blinkit product object. -/
def blinkitMarker : List Char := cs "\x7b\"product_id\":"

def blinkitAnchors (s : List Char) : List Nat :=
  scanPositions (blinkitMarker.isPrefixOf ·) s

/-- Anchored parse plus the validity check
`isinstance(p_data, dict) and p_data.get('product_id')`. -/
def blinkitParseAt (s : List Char) (p : Nat) : Option JObj :=
  match rawDecodeAt s p with
  | some (.obj fs) =>
    if oTruthy (alGet fs (cs "product_id")) then some fs else none
  | _ => none

/-- The discriminator: `pid = str(p_data['product_id'])`. -/
def blinkitPid (fs : JObj) : List Char :=
  pyStrOfOpt (alGet fs (cs "product_id"))

/-- The successfully parsed, valid objects, in anchor order. -/
def blinkitValidList (s : List Char) : List JObj :=
  (blinkitAnchors s).filterMap (blinkitParseAt s)

/-- `if pid not in products_map: products_map[pid] = p_data`
(first-seen wins unconditionally). -/
def blinkitInsert (m : List (List Char × JObj)) (fs : JObj) :
    List (List Char × JObj) :=
  match alGet m (blinkitPid fs) with
  | some _ => m
  | none => m ++ [(blinkitPid fs, fs)]

/-- The `products_map` built by the Blinkit catalog scan. -/
def blinkitProductsMap (s : List Char) : List (List Char × JObj) :=
  (blinkitValidList s).foldl blinkitInsert []

/-! ## EmbeddedDataScanner, Zepto flavour
(`ZeptoScraper.scrape_assortment`, zepto.py lines 166-183). -/

def zeptoHexDash (c : Char) : Bool :=
  (('a' ≤ c) && (c ≤ 'f')) || (('0' ≤ c) && (c ≤ '9')) || (c = '-')

/-- The Zepto anchor regex `\{"id":"[a-f0-9\-]{36}"` tested at a given
suffix. -/
def zeptoAnchorPred (s : List Char) : Bool :=
  (cs "\x7b\"id\":\"").isPrefixOf s &&
  (let t := s.drop 7
   decide ((t.take 36).length = 36) && (t.take 36).all zeptoHexDash &&
   decide ((t.drop 36).take 1 = ['"']))

def zeptoAnchors (s : List Char) : List Nat :=
  scanPositions zeptoAnchorPred s

/-- Anchored parse plus `isinstance(p_data, dict) and p_data.get('id')
and p_data.get('name')`; the key is `p_data.get('name').strip()`, and a
truthy non-str name makes `.strip()` raise inside the per-anchor `try`,
discarding the anchor. -/
def zeptoValidAt (s : List Char) (p : Nat) : Option (List Char × JObj) :=
  match rawDecodeAt s p with
  | some (.obj fs) =>
    if oTruthy (alGet fs (cs "id")) && oTruthy (alGet fs (cs "name")) then
      match alGet fs (cs "name") with
      | some (.str nm) => some (pyStrip nm, fs)
      | _ => none
    else none
  | _ => none

def zeptoValidList (s : List Char) : List (List Char × JObj) :=
  (zeptoAnchors s).filterMap (zeptoValidAt s)

/-- The collision policy: keep the existing entry unless the new one has
a truthy `mrp` and the existing one does not (then replace in place). -/
def zeptoInsert (m : List (List Char × JObj)) (kv : List Char × JObj) :
    List (List Char × JObj) :=
  match alGet m kv.1 with
  | none => m ++ [(kv.1, kv.2)]
  | some existing =>
    if oTruthy (alGet kv.2 (cs "mrp")) && !(oTruthy (alGet existing (cs "mrp")))
    then alUpd m kv.1 kv.2
    else m

/-- The `json_products_map` built by the Zepto catalog scan. -/
def zeptoProductsMap (s : List Char) : List (List Char × JObj) :=
  (zeptoValidList s).foldl zeptoInsert []

/-! ## Candidate selection for single-item availability
(blinkit.py lines 196-219, zepto.py lines 291-322). -/

/-- Stable insertion for a descending sort by key: among equal keys the
earlier element stays first, matching Python's stable
`list.sort(key=..., reverse=True)`. -/
def insDescBy {α : Type} (key : α → Nat) (x : α) : List α → List α
  | [] => [x]
  | y :: ys => if key y ≤ key x then x :: y :: ys else y :: insDescBy key x ys

/-- `candidates.sort(key=lambda x: len(str(x)), reverse=True)`. -/
def sortDescBy {α : Type} (key : α → Nat) : List α → List α
  | [] => []
  | x :: xs => insDescBy key x (sortDescBy key xs)

/-- Leftmost position where `f` succeeds (model of `re.search`). -/
def firstSome {α : Type} (f : List Char → Option α) : List Char → Option α
  | [] => f []
  | s@(_ :: rest) =>
    match f s with
    | some r => some r
    | none => firstSome f rest

/-- One attempt of `re.search(r'prid/(\d+)', url)` at a suffix. -/
def blinkitUrlIdAt (s : List Char) : Option (List Char) :=
  if (cs "prid/").isPrefixOf s then
    let ds := (takeDigits (s.drop 5)).1
    if ds.isEmpty then none else some ds
  else none

/-- The product identifier embedded in a Blinkit URL, if any. -/
def blinkitUrlId (url : List Char) : Option (List Char) :=
  firstSome blinkitUrlIdAt url

/-- One attempt of `re.search(r'pvid/([a-f0-9\-]{36})', url)` at a suffix. -/
def zeptoUrlIdAt (s : List Char) : Option (List Char) :=
  if (cs "pvid/").isPrefixOf s then
    let t := (s.drop 5).take 36
    if decide (t.length = 36) && t.all zeptoHexDash then some t else none
  else none

def zeptoUrlId (url : List Char) : Option (List Char) :=
  firstSome zeptoUrlIdAt url

/-- `str(c.get('product_id')) == tid` (blinkit.py line 213). -/
def blinkitMatchesTid (tid : List Char) (c : JObj) : Bool :=
  decide (pyStrOfOpt (alGet c (cs "product_id")) = tid)

/-- Target selection in `BlinkitScraper.scrape_availability`: the
candidate matching the URL identifier, else (when candidates exist) the
head of the stable descending sort by `len(str(x))`. -/
def blinkitTargetData (product_url content : List Char) : Option JObj :=
  let normalized := pyNormalize content
  let candidates := blinkitValidList normalized
  let t0 := match blinkitUrlId product_url with
    | some tid => candidates.find? (blinkitMatchesTid tid)
    | none => none
  match t0 with
  | some t => some t
  | none =>
    match sortDescBy pyLenStrObj candidates with
    | [] => none
    | t :: _ => some t

/-- Candidate validity in `ZeptoScraper.scrape_availability`
(`isinstance(p_data, dict) and p_data.get('id') and p_data.get('name')`). -/
def zeptoCandAt (s : List Char) (p : Nat) : Option JObj :=
  match rawDecodeAt s p with
  | some (.obj fs) =>
    if oTruthy (alGet fs (cs "id")) && oTruthy (alGet fs (cs "name")) then
      some fs
    else none
  | _ => none

def zeptoCandList (s : List Char) : List JObj :=
  (zeptoAnchors s).filterMap (zeptoCandAt s)

/-- `c.get('id') == target_id` (zepto.py line 317). -/
def zeptoMatchesTid (tid : List Char) (c : JObj) : Bool :=
  pyEqStr (alGet c (cs "id")) tid

/-- Target selection in `ZeptoScraper.scrape_availability`. -/
def zeptoTargetData (product_url content : List Char) : Option JObj :=
  let normalized := pyNormalize content
  let candidates := zeptoCandList normalized
  let t0 := match zeptoUrlId product_url with
    | some tid => candidates.find? (zeptoMatchesTid tid)
    | none => none
  match t0 with
  | some t => some t
  | none =>
    match sortDescBy pyLenStrObj candidates with
    | [] => none
    | t :: _ => some t

/-! ## Python `float()` -/

/-- Exponent suffix of a float literal (`e`/`E`, optional sign, digits);
`some (0, s)` when no exponent follows. -/
def parseExpPart : List Char → Option (Int × List Char)
  | [] => some (0, [])
  | e :: r =>
    if e = 'e' ∨ e = 'E' then
      let (sgn, r1) : Int × List Char := match r with
        | '-' :: more => (-1, more)
        | '+' :: more => (1, more)
        | _ => (1, r)
      let (ed, r2) := takeDigits r1
      if ed = [] then none else some (sgn * (digitsVal ed : Int), r2)
    else some (0, e :: r)

/-- Exact value of a decimal literal from its parts. -/
def pyNumOfParts (sgn : Int) (ip fd : List Char) (ex : Int) : PyNum :=
  (sgn * (digitsVal (ip ++ fd) : Int), ex - (fd.length : Int))

/-- Python `float(str)` on a stripped literal: sign, digits with an
optional point, optional exponent, nothing left over (`inf`/`nan`
forms are not modelled; no claim touches them). -/
def parseFloatLit (s0 : List Char) : Option PyNum :=
  let s := pyStrip s0
  let (sgn, s1) : Int × List Char := match s with
    | '-' :: more => (-1, more)
    | '+' :: more => (1, more)
    | _ => (1, s)
  let (ip, s2) := takeDigits s1
  let withDot : Option (List Char × List Char) := match s2 with
    | '.' :: r =>
      let (fd, r') := takeDigits r
      if ip = [] ∧ fd = [] then none else some (fd, r')
    | _ => if ip = [] then none else some ([], s2)
  match withDot with
  | none => none
  | some (fd, s3) =>
    match parseExpPart s3 with
    | none => none
    | some (ex, s4) =>
      if s4 = [] then some (pyNumOfParts sgn ip fd ex) else none

/-- Python `float(x)` on a recovered JSON value. -/
def pyFloatVal : JVal → Except PyErr PyNum
  | .num v _ _ => .ok v
  | .bool b => .ok (if b then (1, 0) else (0, 0))
  | .str s =>
    match parseFloatLit s with
    | some v => .ok v
    | none => .error ⟨cs "ValueError"⟩
  | _ => .error ⟨cs "TypeError"⟩

/-- The int `0` default of `target_data.get('price', 0)`. -/
def jZero : JVal := JVal.num (0, 0) false (cs "0")

/-! ## `BlinkitScraper.scrape_availability` (blinkit.py lines 166-250)

The page interactions are an environment: the outcome of `goto`, of
`page.content()`, and of the two DOM-fallback queries (`None` both when
the element is absent and when the swallowed inner interaction failed). -/

structure BlinkitPage where
  gotoRes : Except PyErr Unit
  contentRes : Except PyErr (List Char)
  domName : Option (List Char)
  domPriceText : Option (List Char)
  ts : List Char

/-- The `AvailabilityResult` record built by the Blinkit adapter. -/
structure BAvail where
  input_pincode : List Char
  url : List Char
  platform : List Char
  name : JVal
  price : PyNum
  mrp : PyNum
  availability : List Char
  scraped_at : List Char
  error : Option (List Char)

/-- The mojibake rupee sign stripped from the DOM price text. -/
def rupeeSeq : List Char := cs "â‚¹"

/-- The initial record of `scrape_availability`. -/
def blinkitAvailInit (product_url ts : List Char) : BAvail :=
  { input_pincode := [], url := product_url, platform := cs "blinkit",
    name := JVal.str (cs "N/A"), price := (0, 0), mrp := (0, 0),
    availability := cs "Unknown", scraped_at := ts, error := none }

/-- The field assignments of the `if target_data:` branch (blinkit.py
lines 221-227), with the two `float(...)` outcomes as arguments: name is
set first; a raise at the price conversion leaves price/mrp/availability
untouched; a raise at the mrp conversion leaves mrp/availability
untouched; the raise is the one caught by the outer handler, which sets
`error`. -/
def blinkitTargetFields (pr mr : Except PyErr PyNum) (nameV : JVal)
    (unav : Bool) (r : BAvail) : BAvail :=
  match pr, mr with
  | .error e, _ => { r with name := nameV, error := some e.msg }
  | .ok pv, .error e =>
    { r with name := nameV, price := pv, error := some e.msg }
  | .ok pv, .ok mv =>
    let av := if unav then cs "Out of Stock" else cs "In Stock"
    { r with name := nameV, price := pv, mrp := mv, availability := av }

/-- The DOM fallback branch (blinkit.py lines 229-244).  `pv?` is the
combined outcome of the price-element query and `float()` conversion
(`none` both when the element is absent and when conversion raised,
which the bare `except: pass` swallows). -/
def blinkitDomFallback (dn : Option (List Char)) (pv? : Option PyNum)
    (content : List Char) (r : BAvail) : BAvail :=
  let r1 := match dn with
    | some nm => { r with name := JVal.str nm }
    | none => r
  let r2 := match pv? with
    | some v => { r1 with price := v }
    | none => r1
  if r2.availability = cs "Unknown" then
    if containsSub (cs "Out of Stock") content ||
       containsSub (cs "Sold Out") content then
      { r2 with availability := cs "Out of Stock" }
    else { r2 with availability := cs "In Stock" }
  else r2

def blinkitScrapeAvailability (pg : BlinkitPage) (product_url : List Char) :
    BAvail :=
  let r := blinkitAvailInit product_url pg.ts
  match pg.gotoRes with
  | .error e => { r with error := some e.msg }
  | .ok _ =>
    match pg.contentRes with
    | .error e => { r with error := some e.msg }
    | .ok content =>
      match blinkitTargetData product_url content with
      | some t =>
        blinkitTargetFields
          (pyFloatVal (alGetD t (cs "price") jZero))
          (pyFloatVal (alGetD t (cs "mrp") jZero))
          (orChain [alGet t (cs "product_name"), alGet t (cs "display_name")]
            (JVal.str (cs "N/A")))
          (pyEqInt (alGet t (cs "unavailable_quantity")) 1 ||
           pyEqInt (alGet t (cs "inventory")) 0)
          r
      | none =>
        blinkitDomFallback pg.domName
          (pg.domPriceText.bind
            (fun pt => parseFloatLit (pyStrip (pyReplace rupeeSeq [] pt))))
          content r

/-! ## `ZeptoScraper.scrape_availability` (zepto.py lines 250-386)

The page interactions are an environment.  The `wait_for_selector('h1')`
step is wrapped in its own swallow-all handler and has no observable
effect, so it does not appear.  The error-path screenshot at line 383 is
*not* guarded: its failure escapes the method, hence the `Except` result
type. -/

structure ZeptoPage where
  gotoRes : Except PyErr Unit
  contentRes : Except PyErr (List Char)
  domName : Option (List Char)
  domPriceText : Option (List Char)
  domImage : Option (Option (List Char))
  dbgScreenshotRes : Except PyErr Unit
  dbgWriteRes : Except PyErr Unit
  errScreenshotRes : Except PyErr Unit

/-- The availability record built by the Zepto adapter (its fields stay
dynamically typed in the source, hence `JVal`). -/
structure ZAvail where
  url : List Char
  status : List Char
  name : JVal
  brand : JVal
  price : JVal
  mrp : JVal
  weight : JVal
  image : JVal
  shelf_life : JVal
  country_of_origin : JVal

/-- `dict.get` as a value (`None` when absent). -/
def optJ (v : Option JVal) : JVal := v.getD JVal.null

/-- `x / 100` on a recovered value (str and None raise `TypeError`). -/
def pyDiv100 : JVal → Except PyErr JVal
  | .num v _ _ => .ok (JVal.num (v.1, v.2 - 2) true [])
  | .bool b => .ok (JVal.num ((if b then (1 : Int) else 0), -2) true [])
  | _ => .error ⟨cs "TypeError"⟩

/-- The `images[0].get("path")` block: `len()` of a number raises,
indexing a dict with `0` raises, `.get` on a str element raises. -/
def zeptoImageStep (t : JObj) (r : ZAvail) : Except PyErr ZAvail :=
  if oTruthy (alGet t (cs "images")) then
    match alGet t (cs "images") with
    | some (.arr (x :: _)) =>
      match x with
      | .obj xf =>
        let path := alGet xf (cs "path")
        let img := JVal.str
          (cs "https://cdn.zeptonow.com/production///" ++ pyStrOfOpt path)
        if oTruthy path then .ok { r with image := img }
        else .ok r
      | _ => .error ⟨cs "AttributeError"⟩
    | some (.arr []) => .ok r
    | some (.str _) => .error ⟨cs "AttributeError"⟩
    | some (.obj _) => .error ⟨cs "KeyError"⟩
    | _ => .error ⟨cs "TypeError"⟩
  else .ok r

/-- The JSON-extraction phase of `ZeptoScraper.scrape_availability`
(lines 289-347): its own `try` swallows any raise, keeping the
mutations already applied. -/
def zeptoJsonPhase (product_url content : List Char) (r0 : ZAvail) : ZAvail :=
  match zeptoTargetData product_url content with
  | none => r0
  | some t =>
    let r1 := { r0 with name := optJ (alGet t (cs "name")) }
    let brandV :=
      orChain [alGet t (cs "brand"), alGet t (cs "brandName")]
        (JVal.str (cs "Unknown"))
    let r2 := { r1 with brand := brandV }
    let priceStep : Except PyErr JVal :=
      if oTruthy (alGet t (cs "sellingPrice")) then
        pyDiv100 (optJ (alGet t (cs "sellingPrice")))
      else .ok (JVal.str (cs "N/A"))
    match priceStep with
    | .error _ => r2
    | .ok pv =>
      let r3 := { r2 with price := pv }
      let mrpStep : Except PyErr JVal :=
        if oTruthy (alGet t (cs "mrp")) then
          pyDiv100 (optJ (alGet t (cs "mrp")))
        else .ok (JVal.str (cs "N/A"))
      match mrpStep with
      | .error _ => r3
      | .ok mv =>
        let r4 := { r3 with mrp := mv }
        let weightV :=
          orChain [alGet t (cs "packsize"), alGet t (cs "weight")]
            (JVal.str (cs "N/A"))
        let r5 := { r4 with weight := weightV }
        let shelfV :=
          if oTruthy (alGet t (cs "shelfLifeInHours")) then
            JVal.str (pyStrOfOpt (alGet t (cs "shelfLifeInHours")) ++ cs " hours")
          else JVal.str (cs "N/A")
        let r6 := { r5 with shelf_life := shelfV }
        let cooV :=
          orChain [alGet t (cs "countryOfOrigin")] (JVal.str (cs "N/A"))
        let r7 := { r6 with country_of_origin := cooV }
        match zeptoImageStep t r7 with
        | .error _ => r7
        | .ok r8 =>
          if oTruthy (alGet t (cs "isSoldOut")) then
            { r8 with status := cs "Out of Stock" }
          else { r8 with status := cs "In Stock" }

def zeptoScrapeAvailability (pg : ZeptoPage) (product_url : List Char) :
    Except PyErr ZAvail :=
  let na := JVal.str (cs "N/A")
  let r0 : ZAvail :=
    { url := product_url, status := cs "Unknown", name := na, brand := na,
      price := na, mrp := na, weight := na, image := na, shelf_life := na,
      country_of_origin := na }
  let body : Except (ZAvail × PyErr) ZAvail :=
    match pg.gotoRes with
    | .error e => .error (r0, e)
    | .ok _ =>
      match pg.contentRes with
      | .error e => .error (r0, e)
      | .ok content =>
        if containsSub (cs "page you’re looking for") content then
          .ok { r0 with status := cs "Not Found" }
        else
          let r1 := zeptoJsonPhase product_url content r0
          let r2 := if jEqStrLit r1.name (cs "N/A") then
              match pg.domName with
              | some nm => { r1 with name := JVal.str nm }
              | none => r1
            else r1
          let r3 := if jEqStrLit r2.price (cs "N/A") then
              match pg.domPriceText with
              | some pt => { r2 with price := JVal.str pt }
              | none => r2
            else r2
          let r4 := if jEqStrLit r3.image (cs "N/A") then
              match pg.domImage with
              | some (some src) => { r3 with image := JVal.str src }
              | some none => { r3 with image := JVal.null }
              | none => r3
            else r3
          let r5 := if r4.status = cs "Unknown" then
              if containsSub (cs "Sold Out") content ||
                 containsSub (cs "Notify Me") content then
                { r4 with status := cs "Out of Stock" }
              else { r4 with status := cs "In Stock" }
            else r4
          match pg.dbgScreenshotRes with
          | .error e => .error (r5, e)
          | .ok _ =>
            match pg.dbgWriteRes with
            | .error e => .error (r5, e)
            | .ok _ => .ok r5
  match body with
  | .ok r => .ok r
  | .error (rp, _) =>
    match pg.errScreenshotRes with
    | .error e2 => .error e2
    | .ok _ => .ok { rp with status := cs "Error" }

/-! ## `BlinkitScraper.set_location` (blinkit.py lines 31-95)

The ETA-extraction block (lines 74-85) is indented into the body of the
`except` handler of the pincode-interaction `try` (line 70); the second
`except Exception` clause at line 86 belongs to the same `try` and is
dead code (an exception raised *inside* the first handler propagates to
the outer `try` at line 33 instead).  The model reproduces exactly that
control flow; the function returns the final `delivery_eta`. -/

structure BLocPage where
  gotoRes : Except PyErr Unit
  triggerRes : Except PyErr Unit
  modalWaitRes : Except PyErr Unit
  fillFlowRes : Except PyErr Unit
  etaElement : Option (Except PyErr (List Char))
  errScreenshotRes : Except PyErr Unit

/-- `re.search(r'(\d+\s*minutes?|mins?)', text, re.IGNORECASE)`: at each
position try digits-whitespace-"minute(s)" first, then bare "min(s)";
the matched text is taken from the source text. -/
def caselessIsPrefixOf (pat s : List Char) : Bool :=
  pat.isPrefixOf (pyLower (s.take pat.length))

def etaAlt1 (s : List Char) : Option (List Char) :=
  let (ds, r1) := takeDigits s
  if ds = [] then none
  else
    let ws := r1.takeWhile isJWS
    let r2 := r1.drop ws.length
    if caselessIsPrefixOf (cs "minutes") r2 then
      some (ds ++ ws ++ r2.take 7)
    else if caselessIsPrefixOf (cs "minute") r2 then
      some (ds ++ ws ++ r2.take 6)
    else none

def etaAlt2 (s : List Char) : Option (List Char) :=
  if caselessIsPrefixOf (cs "mins") s then some (s.take 4)
  else if caselessIsPrefixOf (cs "min") s then some (s.take 3)
  else none

def blinkitEtaAt (s : List Char) : Option (List Char) :=
  match etaAlt1 s with
  | some m => some m
  | none => etaAlt2 s

def blinkitEtaMatch (text : List Char) : Option (List Char) :=
  firstSome blinkitEtaAt text

def blinkitSetLocation (pg : BLocPage) (eta0 : List Char) : List Char :=
  match pg.gotoRes with
  | .error _ => eta0
  | .ok _ =>
    match pg.triggerRes with
    | _ =>
      match pg.modalWaitRes with
      | .error _ => eta0
      | .ok _ =>
        match pg.fillFlowRes with
        | .ok _ => eta0
        | .error _ =>
          match pg.etaElement with
          | none => eta0
          | some (.error _) => eta0
          | some (.ok text) =>
            match blinkitEtaMatch text with
            | some m => pyLower m
            | none => eta0

/-! ## The batch controller (`run_availability` in main.py, lines 49-124)

`process_row` is modelled per row against an environment giving the
outcomes of the awaited adapter calls; each processed row constructs its
own fresh scraper (there is no reuse across rows), recorded as a
`SessionPlan`.  `asyncio.gather` returns results positionally and
propagates the first exception; `None` results are filtered afterwards. -/

inductive Platform where
  | blinkit
  | zepto
  | instamart
deriving DecidableEq

/-- `get_scraper_cls` (main.py lines 64-68). -/
def getScraperCls (url : List Char) : Option Platform :=
  if containsSub (cs "blinkit.com") url then some .blinkit
  else if containsSub (cs "zepto") url then some .zepto
  else if containsSub (cs "swiggy.com") url then some .instamart
  else none

/-- An input row: column name to cell text. -/
abbrev Row := List (List Char × List Char)

/-- `row.get(k)` followed by a truthiness test (missing and empty cells
are both falsy). -/
def rowGetTruthy (row : Row) (k : List Char) : Option (List Char) :=
  match alGet row k with
  | some v => if v.isEmpty then none else some v
  | none => none

/-- `row.get('url') or row.get('Product Link') or row.get('Product URL')`,
with the subsequent `if not url: return None` folded into `none`. -/
def rowUrl (row : Row) : Option (List Char) :=
  match rowGetTruthy row (cs "url") with
  | some v => some v
  | none =>
    match rowGetTruthy row (cs "Product Link") with
    | some v => some v
    | none => rowGetTruthy row (cs "Product URL")

/-- `str(row.get('pincode') or row.get('Pincode') or default_pincode)`. -/
def rowPincode (defaultPincode : List Char) (row : Row) : List Char :=
  match rowGetTruthy row (cs "pincode") with
  | some v => v
  | none =>
    match rowGetTruthy row (cs "Pincode") with
    | some v => v
    | none => defaultPincode

/-- One adapter construction: which scraper class, which pincode its
`set_location` receives, and the headless flag it was built with. -/
structure SessionPlan where
  platform : Platform
  pincode : List Char
  headless : Bool
deriving DecidableEq

/-- Outcomes of the four awaited adapter calls made by `process_row`. -/
structure AdapterEnv where
  startRes : Except PyErr Unit
  setLocRes : Except PyErr Unit
  scrapeRes : Except PyErr JObj
  stopRes : Except PyErr Unit

/-- The platform string recomputed from the URL (main.py lines 94-96). -/
def platformNameOf (url : List Char) : List Char :=
  let d := pyLower url
  if containsSub (cs "blinkit") d then cs "blinkit"
  else if containsSub (cs "zepto") d then cs "zepto"
  else cs "instamart"

/-- The enrichment applied to a scraped record (main.py lines 92-96). -/
def enrichData (url pincode : List Char) (data : JObj) : JObj :=
  let d1 := alUpd data (cs "input_pincode") (JVal.str pincode)
  if (alGet d1 (cs "platform")).isNone ||
     pyEqStr (alGet d1 (cs "platform")) (cs "blinkit") then
    alUpd d1 (cs "platform") (JVal.str (platformNameOf url))
  else d1

/-- `process_row`: the session plans it creates (one fresh adapter per
processed row) and its result — `none` when the row is skipped or its
processing raised (caught), `Except.error` when the `finally: stop()`
itself raises and escapes. -/
def processRow (workers : Nat) (defaultPincode : List Char)
    (env : AdapterEnv) (row : Row) :
    List SessionPlan × Except PyErr (Option JObj) :=
  match rowUrl row with
  | none => ([], .ok none)
  | some url =>
    match getScraperCls url with
    | none => ([], .ok none)
    | some cls =>
      let pincode := rowPincode defaultPincode row
      let plan : SessionPlan := ⟨cls, pincode, decide (1 < workers)⟩
      let inner : Option JObj :=
        match env.startRes with
        | .error _ => none
        | .ok _ =>
          match env.setLocRes with
          | .error _ => none
          | .ok _ =>
            match env.scrapeRes with
            | .error _ => none
            | .ok data => some (enrichData url pincode data)
      match env.stopRes with
      | .error e => ([plan], .error e)
      | .ok _ => ([plan], .ok inner)

/-- `asyncio.gather`: positional results, first exception propagated. -/
def gatherRows (workers : Nat) (defaultPincode : List Char) :
    List (AdapterEnv × Row) → Except PyErr (List (Option JObj))
  | [] => .ok []
  | (env, row) :: rest =>
    match (processRow workers defaultPincode env row).2 with
    | .error e => .error e
    | .ok r =>
      match gatherRows workers defaultPincode rest with
      | .error e => .error e
      | .ok rs => .ok (r :: rs)

/-- `results = [r for r in results if r is not None]` after the gather. -/
def runAvailabilityResults (workers : Nat) (defaultPincode : List Char)
    (pairs : List (AdapterEnv × Row)) : Except PyErr (List JObj) :=
  match gatherRows workers defaultPincode pairs with
  | .error e => .error e
  | .ok rs => .ok (rs.filterMap id)

/-- All adapter constructions performed by a batch. -/
def sessionPlans (workers : Nat) (defaultPincode : List Char)
    (pairs : List (AdapterEnv × Row)) : List SessionPlan :=
  pairs.flatMap (fun p => (processRow workers defaultPincode p.1 p.2).1)

/-- A row whose platform is determined by its URL. -/
def rowResolvable (row : Row) : Bool :=
  match rowUrl row with
  | none => false
  | some url => (getScraperCls url).isSome

/-- Index-tag a list from `n` upward. -/
def withIdx {α : Type} : Nat → List α → List (Nat × α)
  | _, [] => []
  | n, x :: xs => (n, x) :: withIdx (n + 1) xs

/-- The per-row outcomes in input order. -/
def rowOutcomes (workers : Nat) (defaultPincode : List Char)
    (pairs : List (AdapterEnv × Row)) : List (Except PyErr (Option JObj)) :=
  pairs.map (fun p => (processRow workers defaultPincode p.1 p.2).2)

/-- Keep a row's record (tagged with its source index) when its outcome
is a returned, non-`None` result. -/
def pickOut (p : Nat × Except PyErr (Option JObj)) : Option (Nat × JObj) :=
  match p.2 with
  | .ok (some rec) => some (p.1, rec)
  | _ => none

/-- Output records tagged with the index of their source row. -/
def indexedOutputs (workers : Nat) (defaultPincode : List Char)
    (pairs : List (AdapterEnv × Row)) : List (Nat × JObj) :=
  (withIdx 0 (rowOutcomes workers defaultPincode pairs)).filterMap pickOut

/-! ## Helper lemmas -/

theorem alGet_append_single {α : Type} (m : List (List Char × α))
    (k' : List Char) (v : α) (k : List Char) :
    alGet (m ++ [(k', v)]) k =
      match alGet m k with
      | some x => some x
      | none => if k' = k then some v else none := by
  induction m with
  | nil => simp [alGet]
  | cons hd tl ih =>
    obtain ⟨kh, vh⟩ := hd
    by_cases h : kh = k
    · simp [alGet, h]
    · simp [alGet, h, ih]

theorem alGet_alUpd_isSome {α : Type} (m : List (List Char × α))
    (k : List Char) (v : α) (k' : List Char) :
    (alGet (alUpd m k v) k').isSome =
      ((alGet m k').isSome || decide (k = k')) := by
  induction m with
  | nil =>
    by_cases h : k = k' <;> simp [alUpd, alGet, h]
  | cons hd tl ih =>
    obtain ⟨kh, vh⟩ := hd
    by_cases hk : kh = k
    · subst hk
      by_cases h' : kh = k' <;> simp [alUpd, alGet, h', ih]
    · by_cases h' : kh = k'
      · subst h'
        simp [alUpd, alGet, hk]
      · simp [alUpd, alGet, hk, h', ih]

/-- `blinkitInsert` never removes a key. -/
theorem blinkitInsert_preserves (m : List (List Char × JObj)) (fs : JObj)
    (k : List Char) (h : (alGet m k).isSome = true) :
    (alGet (blinkitInsert m fs) k).isSome = true := by
  unfold blinkitInsert
  cases hg : alGet m (blinkitPid fs) with
  | some _ => exact h
  | none =>
    rw [alGet_append_single]
    cases hk : alGet m k with
    | some _ => simp
    | none => rw [hk] at h; simp at h

/-- `blinkitInsert` makes its own discriminator present. -/
theorem blinkitInsert_adds (m : List (List Char × JObj)) (fs : JObj) :
    (alGet (blinkitInsert m fs) (blinkitPid fs)).isSome = true := by
  unfold blinkitInsert
  cases hg : alGet m (blinkitPid fs) with
  | some _ => simp [hg]
  | none => rw [alGet_append_single, hg]; simp

theorem blinkitFold_preserves (l : List JObj) (m : List (List Char × JObj))
    (k : List Char) (h : (alGet m k).isSome = true) :
    (alGet (l.foldl blinkitInsert m) k).isSome = true := by
  induction l generalizing m with
  | nil => simpa using h
  | cons hd tl ih => exact ih _ (blinkitInsert_preserves m hd k h)

theorem blinkitFold_mem (l : List JObj) (m : List (List Char × JObj))
    (fs : JObj) (h : fs ∈ l) :
    (alGet (l.foldl blinkitInsert m) (blinkitPid fs)).isSome = true := by
  induction l generalizing m with
  | nil => cases h
  | cons hd tl ih =>
    rcases List.mem_cons.1 h with rfl | htl
    · exact blinkitFold_preserves tl _ _ (blinkitInsert_adds m fs)
    · exact ih _ htl

/-- `zeptoInsert` never removes a key. -/
theorem zeptoInsert_preserves (m : List (List Char × JObj))
    (kv : List Char × JObj) (k : List Char)
    (h : (alGet m k).isSome = true) :
    (alGet (zeptoInsert m kv) k).isSome = true := by
  unfold zeptoInsert
  cases hg : alGet m kv.1 with
  | none =>
    rw [alGet_append_single]
    cases hk : alGet m k with
    | some _ => simp
    | none => rw [hk] at h; simp at h
  | some ex =>
    by_cases hc : (oTruthy (alGet kv.2 (cs "mrp")) &&
        !oTruthy (alGet ex (cs "mrp"))) = true
    · simp only [hc, if_true]
      rw [alGet_alUpd_isSome, h]; simp
    · simp only [Bool.not_eq_true] at hc
      simp [hc, h]

/-- `zeptoInsert` makes its own key present. -/
theorem zeptoInsert_adds (m : List (List Char × JObj))
    (kv : List Char × JObj) :
    (alGet (zeptoInsert m kv) kv.1).isSome = true := by
  unfold zeptoInsert
  cases hg : alGet m kv.1 with
  | none => rw [alGet_append_single, hg]; simp
  | some ex =>
    by_cases hc : (oTruthy (alGet kv.2 (cs "mrp")) &&
        !oTruthy (alGet ex (cs "mrp"))) = true
    · simp only [hc, if_true]
      rw [alGet_alUpd_isSome]; simp
    · simp only [Bool.not_eq_true] at hc
      simp [hc, hg]

theorem zeptoFold_preserves (l : List (List Char × JObj))
    (m : List (List Char × JObj)) (k : List Char)
    (h : (alGet m k).isSome = true) :
    (alGet (l.foldl zeptoInsert m) k).isSome = true := by
  induction l generalizing m with
  | nil => simpa using h
  | cons hd tl ih => exact ih _ (zeptoInsert_preserves m hd k h)

theorem zeptoFold_mem (l : List (List Char × JObj))
    (m : List (List Char × JObj)) (kv : List Char × JObj) (h : kv ∈ l) :
    (alGet (l.foldl zeptoInsert m) kv.1).isSome = true := by
  induction l generalizing m with
  | nil => cases h
  | cons hd tl ih =>
    rcases List.mem_cons.1 h with rfl | htl
    · exact zeptoFold_preserves tl _ _ (zeptoInsert_adds m kv)
    · exact ih _ htl

/-- Head of the stable descending sort is a maximal element. -/
theorem sortDescBy_head_max {α : Type} (key : α → Nat) (l : List α)
    (hl : l ≠ []) :
    ∃ t rest, sortDescBy key l = t :: rest ∧ t ∈ l ∧
      ∀ c ∈ l, key c ≤ key t := by
  induction l with
  | nil => cases hl rfl
  | cons x xs ih =>
    by_cases hxs : xs = []
    · subst hxs
      refine ⟨x, [], ?_, List.mem_cons_self _ _, ?_⟩
      · simp [sortDescBy, insDescBy]
      · intro c hc
        rcases List.mem_cons.1 hc with rfl | hc'
        · exact le_refl _
        · simp at hc'
    · obtain ⟨t, rest, hsort, htmem, hmax⟩ := ih hxs
      by_cases hle : key t ≤ key x
      · refine ⟨x, t :: rest, ?_, List.mem_cons_self _ _, ?_⟩
        · simp [sortDescBy, hsort, insDescBy, hle]
        · intro c hc
          rcases List.mem_cons.1 hc with rfl | hc'
          · exact le_refl _
          · exact le_trans (hmax c hc') hle
      · push_neg at hle
        refine ⟨t, insDescBy key x rest, ?_, List.mem_cons_of_mem _ htmem, ?_⟩
        · simp only [sortDescBy, hsort, insDescBy]
          rw [if_neg (by omega)]
        · intro c hc
          rcases List.mem_cons.1 hc with rfl | hc'
          · exact le_of_lt hle
          · exact hmax c hc'

/-! ## Claim C9 -/

/-- Shape of `scrape_availability` once navigation and content
retrieval succeeded (definitional). -/
theorem blinkitScrape_shape (u : Unit) (content : List Char)
    (dn dpt : Option (List Char)) (ts url : List Char) :
    blinkitScrapeAvailability ⟨.ok u, .ok content, dn, dpt, ts⟩ url =
      match blinkitTargetData url content with
      | some t =>
        blinkitTargetFields
          (pyFloatVal (alGetD t (cs "price") jZero))
          (pyFloatVal (alGetD t (cs "mrp") jZero))
          (orChain [alGet t (cs "product_name"), alGet t (cs "display_name")]
            (JVal.str (cs "N/A")))
          (pyEqInt (alGet t (cs "unavailable_quantity")) 1 ||
           pyEqInt (alGet t (cs "inventory")) 0)
          (blinkitAvailInit url ts)
      | none =>
        blinkitDomFallback dn
          (dpt.bind
            (fun pt => parseFloatLit (pyStrip (pyReplace rupeeSeq [] pt))))
          content (blinkitAvailInit url ts) := rfl

theorem blinkitTargetFields_error_unknown (pr mr : Except PyErr PyNum)
    (nameV : JVal) (unav : Bool) (r : BAvail) (hr : r.error = none)
    (ha : r.availability = cs "Unknown")
    (h : (blinkitTargetFields pr mr nameV unav r).error ≠ none) :
    (blinkitTargetFields pr mr nameV unav r).availability = cs "Unknown" := by
  cases pr with
  | error e => simpa [blinkitTargetFields] using ha
  | ok pv =>
    cases mr with
    | error e => simpa [blinkitTargetFields] using ha
    | ok mv => exact absurd (by simp [blinkitTargetFields, hr]) h

theorem blinkitDomFallback_error_none (dn : Option (List Char))
    (pv? : Option PyNum) (content : List Char) (r : BAvail)
    (hr : r.error = none) :
    (blinkitDomFallback dn pv? content r).error = none := by
  cases dn <;> cases pv? <;>
    simp only [blinkitDomFallback] <;> split <;> (try split) <;> simpa

/-- **C9**: invariant of every `AvailabilityResult` returned by
`BlinkitScraper.scrape_availability`: whenever the `error` field is
non-None, the `availability` field is `"Unknown"` — an error-marked
record never claims In Stock or Out of Stock. -/
theorem c9_error_implies_unknown (pg : BlinkitPage) (url : List Char)
    (h : (blinkitScrapeAvailability pg url).error ≠ none) :
    (blinkitScrapeAvailability pg url).availability = cs "Unknown" := by
  obtain ⟨g, c, dn, dpt, ts⟩ := pg
  cases g with
  | error e => rfl
  | ok u =>
    cases c with
    | error e => rfl
    | ok content =>
      rw [blinkitScrape_shape] at h ⊢
      cases ht : blinkitTargetData url content with
      | some t =>
        rw [ht] at h
        exact blinkitTargetFields_error_unknown _ _ _ _ _ rfl rfl h
      | none =>
        rw [ht] at h
        exact absurd (blinkitDomFallback_error_none dn _ content _ rfl) h

def c9Page : BlinkitPage :=
  { gotoRes := .error ⟨cs "Timeout 60000ms exceeded"⟩, contentRes := .ok [],
    domName := none, domPriceText := none, ts := cs "2025-01-01 00:00:00" }

/-- Witness for C9 at a concrete failing navigation. -/
theorem c9_error_implies_unknown_witness :
    (blinkitScrapeAvailability c9Page (cs "u")).error ≠ none ∧
    (blinkitScrapeAvailability c9Page (cs "u")).availability = cs "Unknown" :=
  ⟨by decide, c9_error_implies_unknown c9Page (cs "u") (by decide)⟩

/-! ## Claim C3 -/

def c3OkPage : BLocPage :=
  { gotoRes := .ok (), triggerRes := .ok (), modalWaitRes := .ok (),
    fillFlowRes := .ok (),
    etaElement := some (.ok (cs "Delivery in 12 minutes")),
    errScreenshotRes := .ok () }

def c3FailPage : BLocPage :=
  { c3OkPage with fillFlowRes := .error ⟨cs "TimeoutError"⟩ }

/-- **C3** (code bug): in `BlinkitScraper.set_location` the ETA-capture
step is *not* executed when the location flow completes — the block is
indented inside the `except` handler of the pincode-interaction `try`
(blinkit.py lines 70-87), so on full success `delivery_eta` keeps its
initial `"N/A"` even though the header shows "Delivery in 12 minutes";
the regex scan runs only when the fill/suggestion step failed. -/
theorem c3_eta_capture_in_wrong_branch :
    blinkitSetLocation c3OkPage (cs "N/A") = cs "N/A" ∧
    blinkitSetLocation c3FailPage (cs "N/A") = cs "12 minutes" := by
  constructor <;> rfl

/-! ## Claim C1 -/

def c1Url : List Char :=
  cs "https://www.zepto.com/pn/milk/pvid/aaaaaaaa-bbbb-cccc-dddd-eeeeffff0000"

def c1Page : ZeptoPage :=
  { gotoRes := .error ⟨cs "Timeout 60000ms exceeded"⟩,
    contentRes := .ok [], domName := none, domPriceText := none,
    domImage := none, dbgScreenshotRes := .ok (), dbgWriteRes := .ok (),
    errScreenshotRes :=
      .error ⟨cs "Target page, context or browser has been closed"⟩ }

def c1PageGuarded : ZeptoPage := { c1Page with errScreenshotRes := .ok () }

/-- The record the intended error path would return. -/
def c1ErrRecord : ZAvail :=
  { url := c1Url, status := cs "Error", name := JVal.str (cs "N/A"),
    brand := JVal.str (cs "N/A"), price := JVal.str (cs "N/A"),
    mrp := JVal.str (cs "N/A"), weight := JVal.str (cs "N/A"),
    image := JVal.str (cs "N/A"), shelf_life := JVal.str (cs "N/A"),
    country_of_origin := JVal.str (cs "N/A") }

/-- **C1** (code bug): the diagnostic screenshot in the `except` handler
of `ZeptoScraper.scrape_availability` (zepto.py line 383) is unguarded:
when navigation raises and that screenshot itself raises, the exception
escapes the adapter method instead of being recorded — while with a
succeeding screenshot the same failure is correctly absorbed into a
record with status `"Error"`. -/
theorem c1_error_path_screenshot_escapes :
    zeptoScrapeAvailability c1Page c1Url =
      .error ⟨cs "Target page, context or browser has been closed"⟩ ∧
    zeptoScrapeAvailability c1PageGuarded c1Url = .ok c1ErrRecord := by
  constructor <;> rfl

/-! ## Claim C2 -/

def c2Text : List Char :=
  cs "xx\x7b\"product_id\":\"A1\",\"product_name\":\"Milk\",\"price\":40\x7dyy\x7b\"product_id\":\"A1\",\"product_name\":\"Milk\",\"price\":40,\"mrp\":45\x7dzz"

def c2NoMrp : JObj :=
  [(cs "product_id", JVal.str (cs "A1")),
   (cs "product_name", JVal.str (cs "Milk")),
   (cs "price", JVal.num (40, 0) false (cs "40"))]

def c2WithMrp : JObj := c2NoMrp ++ [(cs "mrp", JVal.num (45, 0) false (cs "45"))]

/-- **C2 counterexample**: on a markup where the mrp-less duplicate is
scanned first, the Blinkit scanner keeps the first-seen entry, not the
one carrying the mrp data — the claim fails for Blinkit. -/
theorem c2_counterexample :
    blinkitValidList c2Text = [c2NoMrp, c2WithMrp] ∧
    blinkitPid c2NoMrp = cs "A1" ∧ blinkitPid c2WithMrp = cs "A1" ∧
    oTruthy (alGet c2WithMrp (cs "mrp")) = true ∧
    alGet (blinkitProductsMap c2Text) (cs "A1") = some c2NoMrp ∧
    ¬ (∃ o, alGet (blinkitProductsMap c2Text) (cs "A1") = some o ∧
        oTruthy (alGet o (cs "mrp")) = true) := by
  refine ⟨rfl, rfl, rfl, rfl, rfl, ?_⟩
  rintro ⟨o, ho, hm⟩
  have h0 : alGet (blinkitProductsMap c2Text) (cs "A1") = some c2NoMrp := rfl
  rw [h0] at ho
  obtain rfl := Option.some.inj ho
  exact absurd hm (by decide)

/-- **C2 amended**: the prefer-the-data collision policy holds for the
Zepto scanner (in either scan order), while the Blinkit scanner keeps
the first-seen entry on every collision. -/
theorem c2_amended_dedup (s k : List Char) (o1 o2 : JObj) :
    (zeptoValidList s = [(k, o1), (k, o2)] →
      oTruthy (alGet o2 (cs "mrp")) = true →
      oTruthy (alGet o1 (cs "mrp")) = false →
      zeptoProductsMap s = [(k, o2)]) ∧
    (zeptoValidList s = [(k, o1), (k, o2)] →
      (oTruthy (alGet o1 (cs "mrp")) = true ∨
       oTruthy (alGet o2 (cs "mrp")) = false) →
      zeptoProductsMap s = [(k, o1)]) ∧
    (blinkitValidList s = [o1, o2] → blinkitPid o1 = k → blinkitPid o2 = k →
      blinkitProductsMap s = [(k, o1)]) := by
  refine ⟨?zPrefer, ?zKeep, ?bkFirst⟩
  · intro h h2 h1
    unfold zeptoProductsMap
    rw [h]
    simp [zeptoInsert, alGet, alUpd, h1, h2]
  · intro h hkeep
    unfold zeptoProductsMap
    rw [h]
    rcases hkeep with h1 | h2
    · simp [zeptoInsert, alGet, alUpd, h1]
    · simp [zeptoInsert, alGet, alUpd, h2]
  · intro h hp1 hp2
    unfold blinkitProductsMap
    rw [h]
    simp [blinkitInsert, alGet, hp1, hp2]

def c2zNoMrp : JObj :=
  [(cs "id", JVal.str (cs "aaaaaaaa-bbbb-cccc-dddd-eeeeffff0000")),
   (cs "name", JVal.str (cs "Milk"))]

def c2zWithMrp : JObj := c2zNoMrp ++ [(cs "mrp", JVal.num (4500, 0) false (cs "4500"))]

def c2zTextA : List Char :=
  cs "..\x7b\"id\":\"aaaaaaaa-bbbb-cccc-dddd-eeeeffff0000\",\"name\":\"Milk\"\x7d..\x7b\"id\":\"aaaaaaaa-bbbb-cccc-dddd-eeeeffff0000\",\"name\":\"Milk\",\"mrp\":4500\x7d"

def c2zTextB : List Char :=
  cs "..\x7b\"id\":\"aaaaaaaa-bbbb-cccc-dddd-eeeeffff0000\",\"name\":\"Milk\",\"mrp\":4500\x7d..\x7b\"id\":\"aaaaaaaa-bbbb-cccc-dddd-eeeeffff0000\",\"name\":\"Milk\"\x7d"

/-- Witness for the amended C2: the Zepto scanner keeps the mrp-carrying
record in both scan orders; the Blinkit scanner keeps the first-seen one. -/
theorem c2_amended_dedup_witness :
    zeptoProductsMap c2zTextA = [(cs "Milk", c2zWithMrp)] ∧
    zeptoProductsMap c2zTextB = [(cs "Milk", c2zWithMrp)] ∧
    blinkitProductsMap c2Text = [(cs "A1", c2NoMrp)] :=
  ⟨(c2_amended_dedup c2zTextA (cs "Milk") c2zNoMrp c2zWithMrp).1
      rfl (by decide) (by decide),
   (c2_amended_dedup c2zTextB (cs "Milk") c2zWithMrp c2zNoMrp).2.1
      rfl (Or.inl (by decide)),
   (c2_amended_dedup c2Text (cs "A1") c2NoMrp c2WithMrp).2.2 rfl rfl rfl⟩

/-! ## Claim C7 -/

/-- **C7**: the embedded-data scan is total by construction (it returns
a map for every markup text); an anchor whose anchored parse fails
contributes nothing (the map folds over the successfully parsed, valid
anchors only), every anchor that parses to a valid discriminated object
has its discriminator present in the result map, and when no anchor
parses the scan returns the empty map — for both scanner flavours. -/
theorem c7_scan_inclusion (s : List Char) :
    (∀ p ∈ blinkitAnchors s, ∀ fs, blinkitParseAt s p = some fs →
      (alGet (blinkitProductsMap s) (blinkitPid fs)).isSome = true) ∧
    (blinkitValidList s = [] → blinkitProductsMap s = []) ∧
    (∀ p ∈ zeptoAnchors s, ∀ kv : List Char × JObj,
      zeptoValidAt s p = some kv →
      (alGet (zeptoProductsMap s) kv.1).isSome = true) ∧
    (zeptoValidList s = [] → zeptoProductsMap s = []) := by
  refine ⟨?bkMem, ?bkNil, ?zpMem, ?zpNil⟩
  · intro p hp fs hfs
    have hmem : fs ∈ blinkitValidList s := List.mem_filterMap.2 ⟨p, hp, hfs⟩
    exact blinkitFold_mem _ [] fs hmem
  · intro h
    unfold blinkitProductsMap
    rw [h]
    rfl
  · intro p hp kv hkv
    have hmem : kv ∈ zeptoValidList s := List.mem_filterMap.2 ⟨p, hp, hkv⟩
    exact zeptoFold_mem _ [] kv hmem
  · intro h
    unfold zeptoProductsMap
    rw [h]
    rfl

def c7Text : List Char :=
  cs "\x7b\"product_id\":\"A1\",\"product_name\":\"M\"\x7d..\x7b\"product_id\":oops"

def c7Obj : JObj :=
  [(cs "product_id", JVal.str (cs "A1")),
   (cs "product_name", JVal.str (cs "M"))]

/-- Witness for C7: the well-formed anchor of a text whose other anchor
is unparsable still lands in the map; fully malformed input gives the
empty map. -/
theorem c7_scan_inclusion_witness :
    (alGet (blinkitProductsMap c7Text) (blinkitPid c7Obj)).isSome = true ∧
    blinkitProductsMap (cs "garbage") = [] :=
  ⟨(c7_scan_inclusion c7Text).1 0 (by decide) c7Obj rfl,
   (c7_scan_inclusion (cs "garbage")).2.1 rfl⟩

/-! ## Claim C8 -/

theorem blinkitFold_length (l : List JObj) (m : List (List Char × JObj))
    (hnd : (l.map blinkitPid).Nodup)
    (hdisj : ∀ fs ∈ l, alGet m (blinkitPid fs) = none) :
    (l.foldl blinkitInsert m).length = m.length + l.length := by
  induction l generalizing m with
  | nil => simp
  | cons hd tl ih =>
    have hhd : alGet m (blinkitPid hd) = none :=
      hdisj hd (List.mem_cons_self _ _)
    have hins : blinkitInsert m hd = m ++ [(blinkitPid hd, hd)] := by
      unfold blinkitInsert
      rw [hhd]
    rw [List.map_cons] at hnd
    have hnodup := List.nodup_cons.1 hnd
    have hdisj' : ∀ fs ∈ tl,
        alGet (m ++ [(blinkitPid hd, hd)]) (blinkitPid fs) = none := by
      intro fs hfs
      rw [alGet_append_single, hdisj fs (List.mem_cons_of_mem _ hfs)]
      have hne : ¬ blinkitPid hd = blinkitPid fs := by
        intro he
        exact hnodup.1 (he ▸ List.mem_map_of_mem blinkitPid hfs)
      simp [hne]
    rw [List.foldl_cons, hins, ih _ hnodup.2 hdisj']
    simp
    omega

/-- **C8**: round-trip — a text whose marker anchors all parse to valid
objects with pairwise-distinct discriminators yields a map with exactly
one entry per discriminator (size = number of parsed objects). -/
theorem c8_roundtrip (s : List Char)
    (h : ((blinkitValidList s).map blinkitPid).Nodup) :
    (blinkitProductsMap s).length = (blinkitValidList s).length := by
  unfold blinkitProductsMap
  rw [blinkitFold_length _ [] h (fun fs _ => rfl)]
  simp

def c8Text : List Char :=
  cs "\x7b\"product_id\":\"A1\",\"product_name\":\"Milk\",\"mrp\":45\x7d..\x7b\"product_id\":\"B2\",\"product_name\":\"Curd\",\"mrp\":30\x7d"

/-- Witness for C8 on a two-object, two-discriminator text. -/
theorem c8_roundtrip_witness :
    (blinkitProductsMap c8Text).length = (blinkitValidList c8Text).length :=
  c8_roundtrip c8Text (by decide)

/-! ## Claim C6 -/

/-- **C6**: for every product URL embedding an identifier, the
availability target selection picks the first embedded candidate whose
discriminator equals that identifier; with no identifier (or no
matching candidate) it picks a candidate of maximal serialized length
(`len(str(x))`), for both the Blinkit and the Zepto adapter; and the
Blinkit availability record is then built from the selected candidate's
fields. -/
theorem c6_candidate_selection (url content : List Char) :
    (∀ tid t, blinkitUrlId url = some tid →
      (blinkitValidList (pyNormalize content)).find?
        (blinkitMatchesTid tid) = some t →
      blinkitTargetData url content = some t) ∧
    (blinkitUrlId url = none → blinkitValidList (pyNormalize content) ≠ [] →
      ∃ t, blinkitTargetData url content = some t ∧
        t ∈ blinkitValidList (pyNormalize content) ∧
        ∀ c ∈ blinkitValidList (pyNormalize content),
          pyLenStrObj c ≤ pyLenStrObj t) ∧
    (∀ tid, blinkitUrlId url = some tid →
      (blinkitValidList (pyNormalize content)).find?
        (blinkitMatchesTid tid) = none →
      blinkitValidList (pyNormalize content) ≠ [] →
      ∃ t, blinkitTargetData url content = some t ∧
        t ∈ blinkitValidList (pyNormalize content) ∧
        ∀ c ∈ blinkitValidList (pyNormalize content),
          pyLenStrObj c ≤ pyLenStrObj t) ∧
    (∀ tid t, zeptoUrlId url = some tid →
      (zeptoCandList (pyNormalize content)).find?
        (zeptoMatchesTid tid) = some t →
      zeptoTargetData url content = some t) ∧
    (zeptoUrlId url = none → zeptoCandList (pyNormalize content) ≠ [] →
      ∃ t, zeptoTargetData url content = some t ∧
        t ∈ zeptoCandList (pyNormalize content) ∧
        ∀ c ∈ zeptoCandList (pyNormalize content),
          pyLenStrObj c ≤ pyLenStrObj t) ∧
    (∀ tid, zeptoUrlId url = some tid →
      (zeptoCandList (pyNormalize content)).find?
        (zeptoMatchesTid tid) = none →
      zeptoCandList (pyNormalize content) ≠ [] →
      ∃ t, zeptoTargetData url content = some t ∧
        t ∈ zeptoCandList (pyNormalize content) ∧
        ∀ c ∈ zeptoCandList (pyNormalize content),
          pyLenStrObj c ≤ pyLenStrObj t) ∧
    (∀ (u : Unit) dn dpt ts t pv mv,
      blinkitTargetData url content = some t →
      pyFloatVal (alGetD t (cs "price") jZero) = .ok pv →
      pyFloatVal (alGetD t (cs "mrp") jZero) = .ok mv →
      blinkitScrapeAvailability ⟨.ok u, .ok content, dn, dpt, ts⟩ url =
        { input_pincode := [], url := url, platform := cs "blinkit",
          name := orChain [alGet t (cs "product_name"),
                           alGet t (cs "display_name")] (JVal.str (cs "N/A")),
          price := pv, mrp := mv,
          availability :=
            if pyEqInt (alGet t (cs "unavailable_quantity")) 1 ||
               pyEqInt (alGet t (cs "inventory")) 0 then cs "Out of Stock"
            else cs "In Stock",
          scraped_at := ts, error := none }) := by
  refine ⟨?bkFind, ?bkNoId, ?bkNoHit, ?zpFind, ?zpNoId, ?zpNoHit, ?bkRec⟩
  · intro tid t h1 h2
    simp [blinkitTargetData, h1, h2]
  · intro h1 hne
    obtain ⟨t, rest, hsort, hmem, hmax⟩ :=
      sortDescBy_head_max pyLenStrObj _ hne
    exact ⟨t, by simp [blinkitTargetData, h1, hsort], hmem, hmax⟩
  · intro tid h1 h2 hne
    obtain ⟨t, rest, hsort, hmem, hmax⟩ :=
      sortDescBy_head_max pyLenStrObj _ hne
    exact ⟨t, by simp [blinkitTargetData, h1, h2, hsort], hmem, hmax⟩
  · intro tid t h1 h2
    simp [zeptoTargetData, h1, h2]
  · intro h1 hne
    obtain ⟨t, rest, hsort, hmem, hmax⟩ :=
      sortDescBy_head_max pyLenStrObj _ hne
    exact ⟨t, by simp [zeptoTargetData, h1, hsort], hmem, hmax⟩
  · intro tid h1 h2 hne
    obtain ⟨t, rest, hsort, hmem, hmax⟩ :=
      sortDescBy_head_max pyLenStrObj _ hne
    exact ⟨t, by simp [zeptoTargetData, h1, h2, hsort], hmem, hmax⟩
  · intro u dn dpt ts t pv mv ht hp hm
    rw [blinkitScrape_shape, ht]
    show blinkitTargetFields (pyFloatVal (alGetD t (cs "price") jZero))
      (pyFloatVal (alGetD t (cs "mrp") jZero))
      (orChain [alGet t (cs "product_name"), alGet t (cs "display_name")]
        (JVal.str (cs "N/A")))
      (pyEqInt (alGet t (cs "unavailable_quantity")) 1 ||
       pyEqInt (alGet t (cs "inventory")) 0)
      (blinkitAvailInit url ts) = _
    rw [hp, hm]
    rfl

def c6Url : List Char := cs "https://blinkit.com/prn/milk/prid/12345"

def c6UrlNoId : List Char := cs "https://blinkit.com/prn/milk"

def c6Content : List Char :=
  cs "aa\x7b\"product_id\":\"99\",\"product_name\":\"Other\",\"price\":10,\"extra\":\"xxxxxxxxxxxxxxxxxxxxxxxx\"\x7dbb\x7b\"product_id\":\"12345\",\"product_name\":\"Milk\",\"price\":40\x7dcc"

def c6Target : JObj :=
  [(cs "product_id", JVal.str (cs "12345")),
   (cs "product_name", JVal.str (cs "Milk")),
   (cs "price", JVal.num (40, 0) false (cs "40"))]

/-- Witness for C6: the URL identifier beats the larger unrelated
candidate; without an identifier the larger candidate wins; the record
is filled from the selected candidate. -/
theorem c6_candidate_selection_witness :
    blinkitTargetData c6Url c6Content = some c6Target ∧
    (∃ t, blinkitTargetData c6UrlNoId c6Content = some t ∧
      t ∈ blinkitValidList (pyNormalize c6Content) ∧
      ∀ c ∈ blinkitValidList (pyNormalize c6Content),
        pyLenStrObj c ≤ pyLenStrObj t) ∧
    blinkitScrapeAvailability
        ⟨.ok (), .ok c6Content, none, none, cs "ts"⟩ c6Url =
      { input_pincode := [], url := c6Url, platform := cs "blinkit",
        name := JVal.str (cs "Milk"), price := (40, 0), mrp := (0, 0),
        availability := cs "In Stock", scraped_at := cs "ts",
        error := none } :=
  ⟨(c6_candidate_selection c6Url c6Content).1 (cs "12345") c6Target rfl rfl,
   (c6_candidate_selection c6UrlNoId c6Content).2.1 rfl
     (by
       intro hemp
       have hlen : (blinkitValidList (pyNormalize c6Content)).length = 2 := rfl
       rw [hemp] at hlen
       simp at hlen),
   (c6_candidate_selection c6Url c6Content).2.2.2.2.2.2 () none none
     (cs "ts") c6Target (40, 0) (0, 0) rfl rfl rfl⟩

/-! ## Shared batch fixtures -/

def rowBlinkit : Row :=
  [(cs "url", cs "https://blinkit.com/prn/milk/prid/12345"),
   (cs "pincode", cs "560001")]

def rowZepto : Row :=
  [(cs "url", cs "https://www.zepto.com/pn/milk/pvid/aaaaaaaa-bbbb-cccc-dddd-eeeeffff0000")]

def rowUnknown : Row := [(cs "url", cs "https://example.com/item/1")]

def envAllOk : AdapterEnv := ⟨.ok (), .ok (), .ok [], .ok ()⟩

/-! ## Claim C4 -/

/-- Per-row adapter construction when the row is resolvable. -/
theorem processRow_plans_resolvable (w : Nat) (d : List Char)
    (env : AdapterEnv) (row : Row) (url : List Char) (cls : Platform)
    (hu : rowUrl row = some url) (hc : getScraperCls url = some cls) :
    (processRow w d env row).1 = [⟨cls, rowPincode d row, decide (1 < w)⟩] := by
  obtain ⟨st, sl, sc, sp⟩ := env
  cases sp <;> simp only [processRow, hu, hc]

/-- Per-row adapter construction when the row is not resolvable. -/
theorem processRow_plans_unresolvable (w : Nat) (d : List Char)
    (env : AdapterEnv) (row : Row) (h : rowResolvable row = false) :
    (processRow w d env row).1 = [] := by
  unfold rowResolvable at h
  cases hu : rowUrl row with
  | none => simp only [processRow, hu]
  | some url =>
    simp only [hu] at h
    cases hc : getScraperCls url with
    | some cls => rw [hc] at h; simp at h
    | none => simp only [processRow, hu, hc]

/-- **C4 counterexample**: with K = 1 and two consecutive rows sharing
the same (platform, location) pair, the controller still constructs two
adapters (and thus runs the location state machine twice) — `main.py`
builds a fresh scraper inside `process_row` for every row and never
reuses one. -/
theorem c4_counterexample :
    (sessionPlans 1 (cs "560001") [(envAllOk, rowBlinkit),
      (envAllOk, rowBlinkit)]).length = 2 ∧
    ¬ ((sessionPlans 1 (cs "560001") [(envAllOk, rowBlinkit),
      (envAllOk, rowBlinkit)]).length = 1) := by
  exact ⟨rfl, by decide⟩

/-- **C4 amended**: for every worker count K, every resolvable row gets
exactly one fresh adapter/session (no reuse, even across rows sharing
platform and location), and each adapter is constructed with
headless = (K > 1). -/
theorem c4_fresh_adapter_per_row (w : Nat) (d : List Char)
    (pairs : List (AdapterEnv × Row)) :
    (sessionPlans w d pairs).length =
      (pairs.filter (fun p => rowResolvable p.2)).length ∧
    ∀ p ∈ sessionPlans w d pairs, p.headless = decide (1 < w) := by
  induction pairs with
  | nil => exact ⟨rfl, by intro p hp; simp [sessionPlans] at hp⟩
  | cons hd tl ih =>
    obtain ⟨env, row⟩ := hd
    have hcons : sessionPlans w d ((env, row) :: tl) =
        (processRow w d env row).1 ++ sessionPlans w d tl := rfl
    cases hres : rowResolvable row with
    | false =>
      have hplans := processRow_plans_unresolvable w d env row hres
      constructor
      · rw [hcons, hplans, List.filter_cons]
        simp only [hres]
        simpa using ih.1
      · intro p hp
        rw [hcons, hplans] at hp
        exact ih.2 p (by simpa using hp)
    | true =>
      have hres' := hres
      unfold rowResolvable at hres'
      cases hu : rowUrl row with
      | none => simp only [hu] at hres'; cases hres'
      | some url =>
        simp only [hu] at hres'
        cases hc : getScraperCls url with
        | none => rw [hc] at hres'; simp at hres'
        | some cls =>
          have hplans := processRow_plans_resolvable w d env row url cls hu hc
          constructor
          · rw [hcons, hplans, List.filter_cons]
            simp only [hres]
            simp [ih.1]
          · intro p hp
            rw [hcons, hplans] at hp
            rcases List.mem_append.1 hp with hp' | hp'
            · rcases List.mem_singleton.1 hp' with rfl
              rfl
            · exact ih.2 p hp'

def c4Plan : SessionPlan := ⟨.blinkit, cs "560001", true⟩

/-- Witness for the amended C4 at K = 3. -/
theorem c4_fresh_adapter_per_row_witness :
    c4Plan.headless = decide (1 < 3) :=
  (c4_fresh_adapter_per_row 3 (cs "560001") [(envAllOk, rowBlinkit)]).2
    c4Plan (by decide)

/-! ## Claim C5 -/

/-- An environment in which the row's adapter calls complete without an
escaping exception. -/
def adapterEnvOk (e : AdapterEnv) : Prop :=
  e.startRes = .ok () ∧ e.setLocRes = .ok () ∧
  (∃ dta, e.scrapeRes = .ok dta) ∧ e.stopRes = .ok ()

theorem processRow_result_ok (w : Nat) (d : List Char) (env : AdapterEnv)
    (row : Row) (he : adapterEnvOk env) :
    ∃ r, (processRow w d env row).2 = .ok r ∧
      r.isSome = rowResolvable row := by
  obtain ⟨h1, h2, ⟨dta, h3⟩, h4⟩ := he
  cases hu : rowUrl row with
  | none =>
    refine ⟨none, ?_, ?_⟩
    · simp only [processRow, hu]
    · simp only [rowResolvable, hu, Option.isSome]
  | some url =>
    cases hc : getScraperCls url with
    | none =>
      refine ⟨none, ?_, ?_⟩
      · simp only [processRow, hu, hc]
      · simp only [rowResolvable, hu, hc, Option.isSome]
    | some cls =>
      refine ⟨some (enrichData url (rowPincode d row) dta), ?_, ?_⟩
      · simp only [processRow, hu, hc, h1, h2, h3, h4]
      · simp only [rowResolvable, hu, hc, Option.isSome]

theorem gather_ok (w : Nat) (d : List Char) (pairs : List (AdapterEnv × Row))
    (h : ∀ p ∈ pairs, adapterEnvOk p.1) :
    ∃ rs, gatherRows w d pairs = .ok rs ∧
      (rs.filterMap id).length =
        (pairs.filter (fun p => rowResolvable p.2)).length := by
  induction pairs with
  | nil => exact ⟨[], rfl, rfl⟩
  | cons hd tl ih =>
    obtain ⟨env, row⟩ := hd
    obtain ⟨r, hr, hrs⟩ :=
      processRow_result_ok w d env row (h _ (List.mem_cons_self _ _))
    obtain ⟨rs, hg, hlen⟩ := ih (fun p hp => h p (List.mem_cons_of_mem _ hp))
    refine ⟨r :: rs, ?_, ?_⟩
    · show gatherRows w d ((env, row) :: tl) = .ok (r :: rs)
      unfold gatherRows
      rw [hr, hg]
    · rw [List.filter_cons]
      cases hr2 : r with
      | none =>
        have hres : rowResolvable row = false := by rw [← hrs, hr2]; rfl
        simp only [hres]
        simpa using hlen
      | some rec =>
        have hres : rowResolvable row = true := by rw [← hrs, hr2]; rfl
        simp only [hres]
        simpa using hlen

def c5BadEnv : AdapterEnv := ⟨.ok (), .ok (), .error ⟨cs "Target closed"⟩, .ok ()⟩

/-- **C5 counterexample**: a row whose platform *is* determined from its
URL yields no output record when the adapter invocation raises (the
exception is caught in `process_row` and the row becomes `None`) — so a
resolvable row can be dropped, contradicting "each row whose platform
can be determined yields exactly one output record". -/
theorem c5_counterexample :
    rowResolvable rowBlinkit = true ∧
    runAvailabilityResults 1 (cs "560001") [(c5BadEnv, rowBlinkit)] =
      .ok [] ∧
    ¬ (∃ rec, runAvailabilityResults 1 (cs "560001")
        [(c5BadEnv, rowBlinkit)] = .ok [rec]) := by
  refine ⟨rfl, rfl, ?_⟩
  rintro ⟨rec, h⟩
  have h0 : runAvailabilityResults 1 (cs "560001") [(c5BadEnv, rowBlinkit)] =
      .ok [] := rfl
  rw [h0] at h
  simp at h

/-- **C5 amended**: when every row's adapter calls complete without an
escaping exception, the batch output has exactly one record per row
whose platform is determined from its URL; rows with an undeterminable
platform are skipped (logged), absent from the output rather than
represented by an error record. -/
theorem c5_resolvable_rows_yield_one (w : Nat) (d : List Char)
    (pairs : List (AdapterEnv × Row))
    (h : ∀ p ∈ pairs, adapterEnvOk p.1) :
    ∃ out, runAvailabilityResults w d pairs = .ok out ∧
      out.length = (pairs.filter (fun p => rowResolvable p.2)).length := by
  obtain ⟨rs, hg, hlen⟩ := gather_ok w d pairs h
  refine ⟨rs.filterMap id, ?_, hlen⟩
  unfold runAvailabilityResults
  rw [hg]

def pairs10 : List (AdapterEnv × Row) :=
  [(envAllOk, rowBlinkit), (envAllOk, rowUnknown), (envAllOk, rowZepto)]

/-- Witness for the amended C5: three rows, two resolvable, one not —
the output has exactly two records and the unresolvable row is absent. -/
theorem c5_resolvable_rows_yield_one_witness :
    ∃ out, runAvailabilityResults 1 (cs "560001") pairs10 = .ok out ∧
      out.length = (pairs10.filter (fun p => rowResolvable p.2)).length :=
  c5_resolvable_rows_yield_one 1 (cs "560001") pairs10 (by
    intro p hp
    have hok : adapterEnvOk envAllOk := ⟨rfl, rfl, ⟨[], rfl⟩, rfl⟩
    cases hp with
    | head => exact hok
    | tail _ hp =>
      cases hp with
      | head => exact hok
      | tail _ hp =>
        cases hp with
        | head => exact hok
        | tail _ hp => cases hp)

/-! ## Claim C10 -/

theorem pickOut_fst {p : Nat × Except PyErr (Option JObj)} {x : Nat × JObj}
    (h : pickOut p = some x) : x.1 = p.1 := by
  obtain ⟨n, hd⟩ := p
  rcases hd with e | o
  · simp [pickOut] at h
  · rcases o with _ | rec
    · simp [pickOut] at h
    · simp only [pickOut] at h
      obtain rfl := Option.some.inj h
      rfl

theorem withIdx_pickOut_ge (l : List (Except PyErr (Option JObj))) :
    ∀ n, ∀ q ∈ (withIdx n l).filterMap pickOut, n ≤ q.1 := by
  induction l with
  | nil => intro n q hq; simp [withIdx] at hq
  | cons hd tl ih =>
    intro n q hq
    simp only [withIdx, List.filterMap_cons] at hq
    cases hp : pickOut (n, hd) with
    | none =>
      rw [hp] at hq
      exact Nat.le_of_succ_le (ih (n + 1) q hq)
    | some x =>
      rw [hp] at hq
      rcases List.mem_cons.1 hq with rfl | hq'
      · exact (pickOut_fst hp).ge
      · exact Nat.le_of_succ_le (ih (n + 1) q hq')

theorem withIdx_pickOut_pairwise (l : List (Except PyErr (Option JObj))) :
    ∀ n, (((withIdx n l).filterMap pickOut).map Prod.fst).Pairwise (· < ·) := by
  induction l with
  | nil => intro n; simp [withIdx]
  | cons hd tl ih =>
    intro n
    simp only [withIdx, List.filterMap_cons]
    cases hp : pickOut (n, hd) with
    | none => exact ih (n + 1)
    | some x =>
      simp only [List.map_cons]
      refine List.Pairwise.cons ?_ (ih (n + 1))
      intro m hm
      obtain ⟨q, hq, rfl⟩ := List.mem_map.1 hm
      have h1 : n + 1 ≤ q.1 := withIdx_pickOut_ge tl (n + 1) q hq
      have h2 : x.1 = n := pickOut_fst hp
      omega

theorem gather_outputs_align (w : Nat) (d : List Char) :
    ∀ (pairs : List (AdapterEnv × Row)) (rs : List (Option JObj)) (n : Nat),
      gatherRows w d pairs = .ok rs →
      ((withIdx n (rowOutcomes w d pairs)).filterMap pickOut).map Prod.snd =
        rs.filterMap id := by
  intro pairs
  induction pairs with
  | nil =>
    intro rs n h
    injection h with h
    subst h
    rfl
  | cons hd tl ih =>
    intro rs n h
    obtain ⟨env, row⟩ := hd
    unfold gatherRows at h
    cases hr : (processRow w d env row).2 with
    | error e => rw [hr] at h; cases h
    | ok r =>
      rw [hr] at h
      cases hg : gatherRows w d tl with
      | error e => rw [hg] at h; cases h
      | ok rs' =>
        rw [hg] at h
        injection h with h
        subst h
        have hro : rowOutcomes w d ((env, row) :: tl) =
            (processRow w d env row).2 :: rowOutcomes w d tl := rfl
        rw [hro, hr]
        cases r with
        | none =>
          have hpick : pickOut (n, Except.ok (none : Option JObj)) = none := rfl
          simp only [withIdx, List.filterMap_cons, hpick]
          simpa using ih rs' (n + 1) hg
        | some rec =>
          have hpick : pickOut (n, Except.ok (some rec)) = some (n, rec) := rfl
          simp only [withIdx, List.filterMap_cons, hpick, List.map_cons]
          simpa using ih rs' (n + 1) hg

/-- **C10**: for every batch input and every worker count K, whenever
the batch completes, the output records appear in the relative order of
their source rows: results are gathered positionally and only then
filtered, so the source indices of the emitted records are strictly
increasing and the filtered projection equals the output. -/
theorem c10_order_preserved (w : Nat) (d : List Char)
    (pairs : List (AdapterEnv × Row)) (out : List JObj)
    (h : runAvailabilityResults w d pairs = .ok out) :
    ((indexedOutputs w d pairs).map Prod.fst).Pairwise (· < ·) ∧
    (indexedOutputs w d pairs).map Prod.snd = out := by
  constructor
  · exact withIdx_pickOut_pairwise (rowOutcomes w d pairs) 0
  · unfold runAvailabilityResults at h
    cases hg : gatherRows w d pairs with
    | error e => rw [hg] at h; cases h
    | ok rs =>
      rw [hg] at h
      injection h with h
      subst h
      exact gather_outputs_align w d pairs rs 0 hg

def out10 : List JObj :=
  ((runAvailabilityResults 1 (cs "560001") pairs10).toOption).getD []

/-- Witness for C10 on a three-row batch whose middle row is dropped. -/
theorem c10_order_preserved_witness :
    ((indexedOutputs 1 (cs "560001") pairs10).map Prod.fst).Pairwise (· < ·) ∧
    (indexedOutputs 1 (cs "560001") pairs10).map Prod.snd = out10 :=
  c10_order_preserved 1 (cs "560001") pairs10 out10 rfl
